import Mathlib

/-!
# Verification of the whir-solana proof lifecycle and codecs

Shallow embedding of the whir-solana repository:
* `config/src/lib.rs` — protocol configuration, `field_size_bytes`, `create_whir_params`;
* `native-prover/src/lib.rs` — `generate_pcs_proof`, artifact serialization;
* `programs/whir-verifier-solana/src/lib.rs` — the on-chain instructions
  `init_proof`, `upload_chunk`, `verify`, `close_proof`, `deserialize_eval_point`,
  and the Anchor account constraints declared on them.

The WHIR commitment scheme itself (whir_common / whir_prover / whir_verifier)
and the spongefish transcript library are external dependencies; following the
repository design they are treated as an opaque capability, represented here by
the `Backend` structure over which all theorems quantify.
-/

namespace WhirSolana

/-- A byte, as stored in the Rust `Vec<u8>` buffers. -/
abbrev Byte := Fin 256

/-- An account identity (Solana `Pubkey`), abstracted to a natural number. -/
abbrev Pubkey := Nat

/-- Modulus of the 64-bit base prime field `Field64` used by
`whir_common::crypto::fields::Field64_2` (the Goldilocks prime `2^64 - 2^32 + 1`). -/
def field64_modulus : Nat := 18446744069414584321

/-- An element of `F = Field64_2`, the degree-2 extension of `Field64`:
a pair of base-field coordinates `(c0, c1)`. -/
structure F where
  c0 : Fin field64_modulus
  c1 : Fin field64_modulus
deriving DecidableEq

/-- The zero element of `F` (`F::default()` in the Rust code). -/
def Fzero : F := ⟨⟨0, by decide⟩, ⟨0, by decide⟩⟩

/-- Little-endian byte rendering of a natural number into `w` bytes, as
`ark_serialize` writes a canonical base-field representative. -/
def natToLeBytes : Nat → Nat → List Byte
  | 0, _ => []
  | w + 1, n => ⟨n % 256, Nat.mod_lt _ (by omega)⟩ :: natToLeBytes w (n / 256)

/-- Little-endian interpretation of a byte list as a natural number. -/
def leBytesToNat : List Byte → Nat
  | [] => 0
  | b :: bs => b.val + 256 * leBytesToNat bs

theorem natToLeBytes_length (w n : Nat) : (natToLeBytes w n).length = w := by
  induction w generalizing n with
  | zero => rfl
  | succ k ih => simp [natToLeBytes, ih]

theorem leBytesToNat_natToLeBytes (w n : Nat) (h : n < 256 ^ w) :
    leBytesToNat (natToLeBytes w n) = n := by
  induction w generalizing n with
  | zero =>
    have hn : n = 0 := by simpa using h
    simp [natToLeBytes, leBytesToNat, hn]
  | succ k ih =>
    have hdiv : n / 256 < 256 ^ k := by
      apply Nat.div_lt_of_lt_mul
      rw [pow_succ] at h
      omega
    simp only [natToLeBytes, leBytesToNat, ih (n / 256) hdiv]
    omega

/-- `serialize_compressed` for one element of `F` (ark `QuadExtField`):
the canonical little-endian bytes of `c0` followed by those of `c1`,
eight bytes each for the 64-bit base field. -/
def serializeF (x : F) : List Byte :=
  natToLeBytes 8 x.c0.val ++ natToLeBytes 8 x.c1.val

theorem serializeF_length (x : F) : (serializeF x).length = 16 := by
  simp [serializeF, natToLeBytes_length]

/-- Producer-side encoding of an evaluation point
(`native-prover/src/lib.rs` lines 117-121): serialize each coordinate in
order, appending the bytes. -/
def serializePoint : List F → List Byte
  | [] => []
  | x :: xs => serializeF x ++ serializePoint xs

/-- `field_size_bytes()` from `config/src/lib.rs`: the compressed serialized
size of the default (zero) field element. -/
def field_size_bytes : Nat := (serializeF Fzero).length

theorem field_size_bytes_eq : field_size_bytes = 16 := rfl

/-- Error codes of the on-chain program (`WhirError` in
`programs/whir-verifier-solana/src/lib.rs`). -/
inductive WhirError where
  | CommitmentParseError
  | DeserializationError
  | VerificationFailed
deriving DecidableEq

/-- `F::deserialize_compressed` on a byte slice: read eight bytes per base
coordinate (failing if fewer are available), rejecting a non-canonical
representative (`≥` the modulus); trailing bytes beyond the sixteen read are
ignored, as an `ark` reader leaves them unconsumed. -/
def deserializeF (bs : List Byte) : Option F :=
  if 16 ≤ bs.length then
    if ha : leBytesToNat (bs.take 8) < field64_modulus then
      if hb : leBytesToNat ((bs.drop 8).take 8) < field64_modulus then
        some ⟨⟨leBytesToNat (bs.take 8), ha⟩, ⟨leBytesToNat ((bs.drop 8).take 8), hb⟩⟩
      else none
    else none
  else none

/-- `deserialize_eval_point` from `programs/whir-verifier-solana/src/lib.rs`
lines 159-168: iterate over `chunks_exact(field_size)` — complete 16-byte
slices left to right, any shorter trailing remainder silently dropped —
deserializing each slice and failing on the first malformed one. -/
def deserialize_eval_point (bytes : List Byte) : Except WhirError (List F) :=
  if _h : bytes.length < 16 then .ok []
  else
    match deserializeF (bytes.take 16) with
    | none => .error .DeserializationError
    | some v =>
      match deserialize_eval_point (bytes.drop 16) with
      | .error e => .error e
      | .ok rest => .ok (v :: rest)
termination_by bytes.length
decreasing_by
  simp only [List.length_drop]
  omega

theorem deserialize_eval_point_eq (bytes : List Byte) :
    deserialize_eval_point bytes =
      if _h : bytes.length < 16 then .ok []
      else
        match deserializeF (bytes.take 16) with
        | none => .error .DeserializationError
        | some v =>
          match deserialize_eval_point (bytes.drop 16) with
          | .error e => .error e
          | .ok rest => .ok (v :: rest) := by
  rw [deserialize_eval_point]

theorem take_len_append {α : Type} (l₁ l₂ : List α) : (l₁ ++ l₂).take l₁.length = l₁ := by
  induction l₁ with
  | nil => rfl
  | cons a t ih => simp [ih]

theorem drop_len_append {α : Type} (l₁ l₂ : List α) : (l₁ ++ l₂).drop l₁.length = l₂ := by
  induction l₁ with
  | nil => rfl
  | cons a t ih => simp [ih]

theorem deserializeF_serializeF_append (x : F) (r : List Byte) :
    deserializeF (serializeF x ++ r) = some x := by
  obtain ⟨⟨a, ha⟩, ⟨b, hb⟩⟩ := x
  have hmod : field64_modulus < 256 ^ 8 := by decide
  have h1 : (serializeF ⟨⟨a, ha⟩, ⟨b, hb⟩⟩ ++ r).take 8 = natToLeBytes 8 a := by
    simp only [serializeF, List.append_assoc]
    have h := take_len_append (natToLeBytes 8 a) (natToLeBytes 8 b ++ r)
    rwa [natToLeBytes_length] at h
  have h2 : ((serializeF ⟨⟨a, ha⟩, ⟨b, hb⟩⟩ ++ r).drop 8).take 8 = natToLeBytes 8 b := by
    simp only [serializeF, List.append_assoc]
    have hd := drop_len_append (natToLeBytes 8 a) (natToLeBytes 8 b ++ r)
    rw [natToLeBytes_length] at hd
    rw [hd]
    have h := take_len_append (natToLeBytes 8 b) r
    rwa [natToLeBytes_length] at h
  have hlen : 16 ≤ (serializeF ⟨⟨a, ha⟩, ⟨b, hb⟩⟩ ++ r).length := by
    simp [serializeF_length]
  rw [deserializeF, if_pos hlen, h1, h2,
    leBytesToNat_natToLeBytes 8 a (lt_trans ha hmod),
    leBytesToNat_natToLeBytes 8 b (lt_trans hb hmod),
    dif_pos ha, dif_pos hb]

theorem deserializeF_serializeF (x : F) : deserializeF (serializeF x) = some x := by
  have h := deserializeF_serializeF_append x []
  simpa using h

/-- Decoding the producer encoding of a point followed by any remainder
shorter than one field element recovers exactly the encoded coordinates,
in order. -/
theorem deserialize_serializePoint_append (P : List F) (rem : List Byte)
    (h : rem.length < 16) :
    deserialize_eval_point (serializePoint P ++ rem) = .ok P := by
  induction P with
  | nil =>
    rw [deserialize_eval_point_eq]
    simp [serializePoint, h]
  | cons x xs ih =>
    rw [deserialize_eval_point_eq]
    have hlen : ¬ (serializePoint (x :: xs) ++ rem).length < 16 := by
      simp [serializePoint, serializeF_length]
    rw [dif_neg hlen]
    have htake : (serializePoint (x :: xs) ++ rem).take 16
        = (serializeF x ++ (serializePoint xs ++ rem)).take 16 := by
      simp [serializePoint]
    have htake16 : (serializeF x ++ (serializePoint xs ++ rem)).take 16 = serializeF x := by
      have h := take_len_append (serializeF x) (serializePoint xs ++ rem)
      rwa [serializeF_length] at h
    have hdrop : (serializePoint (x :: xs) ++ rem).drop 16
        = serializePoint xs ++ rem := by
      have h := drop_len_append (serializeF x) (serializePoint xs ++ rem)
      rw [serializeF_length] at h
      simp [serializePoint, h]
    rw [htake, htake16, deserializeF_serializeF, hdrop, ih]

theorem deserialize_serializePoint (P : List F) :
    deserialize_eval_point (serializePoint P) = .ok P := by
  have h := deserialize_serializePoint_append P [] (by decide)
  simpa using h

/-- `MultivariateParameters::<F>::new(num_variables)` argument record. -/
structure MultivariateParameters where
  num_variables : Nat
deriving DecidableEq

/-- The folding-factor variant used by `create_whir_params`. -/
inductive FoldingFactor where
  | ConstantFromSecondRound (first subsequent : Nat)
deriving DecidableEq

/-- The soundness type used by `create_whir_params`. -/
inductive SoundnessType where
  | ConjectureList
deriving DecidableEq

/-- The deduplication strategy used by `create_whir_params`. -/
inductive DeduplicationStrategy where
  | Enabled
deriving DecidableEq

/-- The Merkle proof strategy used by `create_whir_params`. -/
inductive MerkleProofStrategy where
  | Compressed
deriving DecidableEq

/-- The `ProtocolParameters` record that `create_whir_params` fills in
(`config/src/lib.rs` lines 71-84), with the Merkle hash key material of
type `KeyMat` left opaque. -/
structure ProtocolParameters (KeyMat : Type) where
  initial_statement : Bool
  security_level : Nat
  pow_bits : Nat
  folding_factor : FoldingFactor
  leaf_hash_params : KeyMat
  two_to_one_params : KeyMat
  soundness_type : SoundnessType
  starting_log_inv_rate : Nat
  batch_size : Nat
  deduplication_strategy : DeduplicationStrategy
  merkle_proof_strategy : MerkleProofStrategy

/-- The evaluation statement both sides build: `Statement::new(num_variables)`
followed by one `add_constraint(Weights::evaluation(point), value)`. -/
structure Statement where
  num_variables : Nat
  point : List F
  value : F

/-- The opaque external WHIR capability: the whir_common / whir_prover /
whir_verifier crates and the spongefish transcript library, which the
repository treats as a black box. The fields mirror the operations the
repository invokes on them. `defaultConfigLeafHash` and
`defaultConfigTwoToOne` are the outputs of `default_config` under the fixed
`ark_std::test_rng()` seed, hence fixed values; a domain separator is its
byte string, as spongefish renders it. -/
structure Backend where
  Params : Type
  Commitment : Type
  KeyMat : Type
  Poly : Type
  defaultConfigLeafHash : KeyMat
  defaultConfigTwoToOne : KeyMat
  whirConfigNew : MultivariateParameters → ProtocolParameters KeyMat → Params
  domainSepNew : String → List Byte
  commitStatement : Params → List Byte → List Byte
  addWhirProof : Params → List Byte → List Byte
  proveTranscript : Params → List Byte → Poly → Statement → Nat → List Byte
  parseCommitment : Params → List Byte → List Byte → Option Commitment
  verifyCheck : Params → List Byte → Commitment → Statement → List Byte → Bool
  evaluateAtExtension : Poly → List F → F

/-- The fixed protocol label `DOMAIN_SEPARATOR` from `config/src/lib.rs`. -/
def DOMAIN_SEPARATOR : String := "whir-solana"

/-- `create_whir_params` from `config/src/lib.rs` lines 53-92: build the
multivariate and protocol parameter records — constants fixed as in the
source, hash key material from the fixed-seed rng — and hand them to the
external `WhirConfig::new`. -/
def create_whir_params (B : Backend)
    (num_variables security_level pow_bits folding_factor starting_log_inv_rate : Nat) :
    B.Params :=
  B.whirConfigNew ⟨num_variables⟩
    { initial_statement := true
      security_level := security_level
      pow_bits := pow_bits
      folding_factor := .ConstantFromSecondRound folding_factor folding_factor
      leaf_hash_params := B.defaultConfigLeafHash
      two_to_one_params := B.defaultConfigTwoToOne
      soundness_type := .ConjectureList
      starting_log_inv_rate := starting_log_inv_rate
      batch_size := 1
      deduplication_strategy := .Enabled
      merkle_proof_strategy := .Compressed }

/-- `ProofConfig` from `native-prover/src/lib.rs` lines 38-44, the producer
configuration with full machine-word (`usize`) fields. -/
structure ProofConfig where
  num_variables : Nat
  security_level : Nat
  pow_bits : Nat
  starting_log_inv_rate : Nat
  folding_factor : Nat
deriving DecidableEq

/-- The prover-side `create_whir_params(config: &ProofConfig)` wrapper
(`native-prover/src/lib.rs` lines 58-66). -/
def create_whir_params_cfg (B : Backend) (config : ProofConfig) : B.Params :=
  create_whir_params B config.num_variables config.security_level config.pow_bits
    config.folding_factor config.starting_log_inv_rate

/-- The transportable proof artifact `WhirProof`
(`native-prover/src/lib.rs` lines 25-34). -/
structure WhirProof where
  proof_bytes : List Byte
  eval_point : List Byte
  eval_value : List Byte
  num_variables : Nat

/-- `generate_pcs_proof` from `native-prover/src/lib.rs` lines 83-133:
derive parameters and the domain separator, evaluate the polynomial at the
point, run the black-box commit + prove pipeline to obtain the transcript
bytes, and serialize the point coordinate by coordinate and the value. The
`seed` stands for whatever internal randomness the black-box prover draws. -/
def generate_pcs_proof (B : Backend) (config : ProofConfig) (polynomial : B.Poly)
    (eval_point : List F) (seed : Nat) : WhirProof :=
  let params := create_whir_params_cfg B config
  let domainsep := B.addWhirProof params (B.commitStatement params (B.domainSepNew DOMAIN_SEPARATOR))
  let expected_value := B.evaluateAtExtension polynomial eval_point
  let statement : Statement := ⟨config.num_variables, eval_point, expected_value⟩
  let proof_bytes := B.proveTranscript params domainsep polynomial statement seed
  ⟨proof_bytes, serializePoint eval_point, serializeF expected_value, config.num_variables⟩

/-- The domain separator as the native prover derives it
(`native-prover/src/lib.rs` lines 91-93): the fixed label, then
`commit_statement`, then `add_whir_proof`, in that order. -/
def prover_domainsep (B : Backend) (config : ProofConfig) : List Byte :=
  let params := create_whir_params_cfg B config
  B.addWhirProof params (B.commitStatement params (B.domainSepNew DOMAIN_SEPARATOR))

/-- The parameters the on-chain `verify` builds
(`programs/whir-verifier-solana/src/lib.rs` lines 70-76) from its five
`u8` arguments, each widened with `as usize`. -/
def onchain_params (B : Backend) (nv sl pb ff slir : Fin 256) : B.Params :=
  create_whir_params B nv.val sl.val pb.val ff.val slir.val

/-- The domain separator the on-chain `verify` derives
(`programs/whir-verifier-solana/src/lib.rs` lines 78-80): the fixed label,
then `commit_statement`, then `add_whir_proof`, in that order. -/
def onchain_domainsep (B : Backend) (nv sl pb ff slir : Fin 256) : List Byte :=
  B.addWhirProof (onchain_params B nv sl pb ff slir)
    (B.commitStatement (onchain_params B nv sl pb ff slir) (B.domainSepNew DOMAIN_SEPARATOR))

/-- The staged proof record stored in the `ProofData` account
(`programs/whir-verifier-solana/src/lib.rs` lines 114-120). -/
structure ProofData where
  payer : Pubkey
  proof : List Byte
  eval_point : List Byte
  eval_value : List Byte
deriving DecidableEq

/-- The body of the on-chain `verify` instruction
(`programs/whir-verifier-solana/src/lib.rs` lines 49-105) on a staged
record: build parameters and domain separator from the `u8` arguments,
parse the commitment from the staged proof bytes, decode the staged point
and value bytes, rebuild the evaluation statement and run the black-box
verifier, mapping each failure to its distinct error. -/
def solana_verify_record (B : Backend) (d : ProofData) (nv sl pb ff slir : Fin 256) :
    Except WhirError Unit :=
  match B.parseCommitment (onchain_params B nv sl pb ff slir)
      (onchain_domainsep B nv sl pb ff slir) d.proof with
  | none => .error .CommitmentParseError
  | some parsed_commitment =>
    match deserialize_eval_point d.eval_point with
    | .error e => .error e
    | .ok eval_point =>
      match deserializeF d.eval_value with
      | none => .error .DeserializationError
      | some eval_value =>
        if B.verifyCheck (onchain_params B nv sl pb ff slir)
            (onchain_domainsep B nv sl pb ff slir) parsed_commitment
            ⟨nv.val, eval_point, eval_value⟩ d.proof
        then .ok () else .error .VerificationFailed

/-- Completeness contract of the opaque capability (spec section 6): a
transcript produced by the honest commit + prove pipeline parses back as a
commitment and the cryptographic check accepts it against the statement it
was produced for, whatever internal randomness was drawn. -/
def Backend.Complete (B : Backend) : Prop :=
  ∀ params domainsep poly statement seed,
    ∃ parsed,
      B.parseCommitment params domainsep
          (B.proveTranscript params domainsep poly statement seed) = some parsed ∧
      B.verifyCheck params domainsep parsed statement
          (B.proveTranscript params domainsep poly statement seed) = true

/-- Errors surfaced by the program as a whole: the Anchor account-constraint
failures declared by the `#[derive(Accounts)]` structs — `NotOwner` for a
violated `has_one = payer` signer check, `AlreadyInitialized` for a violated
`#[account(zero)]` check, `AccountNotFound` for an account that does not
exist — together with the handler errors `WhirError`. -/
inductive ProgramError where
  | NotOwner
  | AlreadyInitialized
  | AccountNotFound
  | whir (e : WhirError)
deriving DecidableEq

/-- A storage slot: `none` when no initialized `ProofData` account lives
there (never initialized, or closed), `some` record otherwise. -/
abbrev Slot := Option ProofData

/-- The four instructions of the program, with the arguments each carries
on the wire; `verifyIx` carries the five configuration fields as `u8`. -/
inductive Instruction where
  | initProof (evalPointBytes evalValueBytes : List Byte)
  | uploadChunk (chunk : List Byte)
  | verifyIx (nv sl pb ff slir : Fin 256)
  | closeProof

/-- One instruction execution against a storage slot, by the signing
`caller`: the handler bodies of `programs/whir-verifier-solana/src/lib.rs`
combined with the constraints of their `#[derive(Accounts)]` structs —
`init_proof` requires a zeroed account (`#[account(zero)]`) and records the
signer as `payer`; `upload_chunk` and `close_proof` require
`has_one = payer` with `payer` a signer; `verify` takes the account
read-only with no signer and no ownership constraint. -/
def step (B : Backend) (i : Instruction) (caller : Pubkey) (slot : Slot) :
    Slot × Except ProgramError Unit :=
  match i, slot with
  | .initProof ep ev, none => (some ⟨caller, [], ep, ev⟩, .ok ())
  | .initProof _ _, some d => (some d, .error .AlreadyInitialized)
  | .uploadChunk _, none => (none, .error .AccountNotFound)
  | .uploadChunk chunk, some d =>
      if caller = d.payer then (some { d with proof := d.proof ++ chunk }, .ok ())
      else (some d, .error .NotOwner)
  | .verifyIx _ _ _ _ _, none => (none, .error .AccountNotFound)
  | .verifyIx nv sl pb ff slir, some d =>
      (some d,
        match solana_verify_record B d nv sl pb ff slir with
        | .ok u => .ok u
        | .error e => .error (.whir e))
  | .closeProof, none => (none, .error .AccountNotFound)
  | .closeProof, some d =>
      if caller = d.payer then (none, .ok ()) else (some d, .error .NotOwner)

/-- Concatenation of a chunk sequence in arrival order. -/
def flattenChunks : List (List Byte) → List Byte
  | [] => []
  | c :: cs => c ++ flattenChunks cs

/-- Run a sequence of `upload_chunk` instructions in order. -/
def runUploads (B : Backend) (caller : Pubkey) (chunks : List (List Byte)) (slot : Slot) :
    Slot :=
  chunks.foldl (fun s c => (step B (.uploadChunk c) caller s).1) slot

/-- The `u8` wire encoding of an intended configuration value: a wider
intended value is wrapped modulo 256 when placed into the `u8` instruction
argument. -/
def toU8 (n : Nat) : Fin 256 := ⟨n % 256, by omega⟩

/-- A degenerate instantiation of the opaque capability, used to exercise
the glue code on concrete inputs: the transcript is empty, parsing always
succeeds and the cryptographic check always accepts. -/
def trivialBackend : Backend where
  Params := Unit
  Commitment := Unit
  KeyMat := Unit
  Poly := Unit
  defaultConfigLeafHash := ()
  defaultConfigTwoToOne := ()
  whirConfigNew := fun _ _ => ()
  domainSepNew := fun _ => []
  commitStatement := fun _ ds => ds
  addWhirProof := fun _ ds => ds
  proveTranscript := fun _ _ _ _ _ => []
  parseCommitment := fun _ _ _ => some ()
  verifyCheck := fun _ _ _ _ _ => true
  evaluateAtExtension := fun _ _ => Fzero

theorem trivialBackend_complete : trivialBackend.Complete :=
  fun _ _ _ _ _ => ⟨(), rfl, rfl⟩

/-- Ownership of an upload after a successful chunk append: the proof
buffer grows by exactly the chunk, with the owner unchanged. -/
theorem runUploads_owner (B : Backend) (caller : Pubkey) (chunks : List (List Byte)) :
    ∀ d : ProofData, caller = d.payer →
      runUploads B caller chunks (some d)
        = some { d with proof := d.proof ++ flattenChunks chunks } := by
  induction chunks with
  | nil =>
    intro d h
    simp [runUploads, flattenChunks]
  | cons c cs ih =>
    intro d h
    have h1 : (step B (.uploadChunk c) caller (some d)).1
        = some { d with proof := d.proof ++ c } := by
      simp [step, h]
    have h2 := ih { d with proof := d.proof ++ c } h
    simp only [runUploads, List.foldl_cons] at h2 ⊢
    rw [h1, h2]
    simp [flattenChunks, List.append_assoc]

/-- Claim C1: for every protocol configuration (as passable to the on-chain
interface), every polynomial and every evaluation point with
`config.numVariables` coordinates, generating a proof artifact with
`generate_pcs_proof` — which evaluates the claimed value itself — and then
verifying that artifact with the same configuration through the on-chain
`verify` returns Ok, provided the opaque prove/verify capability meets its
completeness contract. -/
theorem generate_then_verify_ok (B : Backend) (hB : B.Complete)
    (nv sl pb ff slir : Fin 256) (polynomial : B.Poly) (z : List F)
    (seed : Nat) (owner : Pubkey) (_hz : z.length = nv.val) :
    solana_verify_record B
      ⟨owner,
       (generate_pcs_proof B ⟨nv.val, sl.val, pb.val, slir.val, ff.val⟩ polynomial z seed).proof_bytes,
       (generate_pcs_proof B ⟨nv.val, sl.val, pb.val, slir.val, ff.val⟩ polynomial z seed).eval_point,
       (generate_pcs_proof B ⟨nv.val, sl.val, pb.val, slir.val, ff.val⟩ polynomial z seed).eval_value⟩
      nv sl pb ff slir = .ok () := by
  obtain ⟨parsed, hparse, hver⟩ :=
    hB (onchain_params B nv sl pb ff slir) (onchain_domainsep B nv sl pb ff slir)
      polynomial ⟨nv.val, z, B.evaluateAtExtension polynomial z⟩ seed
  simp only [solana_verify_record, generate_pcs_proof, create_whir_params_cfg,
    onchain_params, onchain_domainsep] at hparse hver ⊢
  rw [hparse, deserialize_serializePoint, deserializeF_serializeF]
  simp [hver]

theorem generate_then_verify_ok_witness :
    solana_verify_record trivialBackend
      ⟨0,
       (generate_pcs_proof trivialBackend
         ⟨(1 : Fin 256).val, (0 : Fin 256).val, (0 : Fin 256).val, (0 : Fin 256).val,
          (0 : Fin 256).val⟩ () [Fzero] 0).proof_bytes,
       (generate_pcs_proof trivialBackend
         ⟨(1 : Fin 256).val, (0 : Fin 256).val, (0 : Fin 256).val, (0 : Fin 256).val,
          (0 : Fin 256).val⟩ () [Fzero] 0).eval_point,
       (generate_pcs_proof trivialBackend
         ⟨(1 : Fin 256).val, (0 : Fin 256).val, (0 : Fin 256).val, (0 : Fin 256).val,
          (0 : Fin 256).val⟩ () [Fzero] 0).eval_value⟩
      1 0 0 0 0 = .ok () :=
  generate_then_verify_ok trivialBackend trivialBackend_complete 1 0 0 0 0 () [Fzero] 0 0
    (by decide)

/-- Claim C2, counterexample: the single byte `0x00` has length 1, which is
not a multiple of `field_size_bytes()` (16), yet `deserialize_eval_point`
does not fail — `chunks_exact` silently drops the remainder and the decoder
returns the empty point. -/
theorem deserialize_eval_point_no_length_error :
    ¬ (1 % field_size_bytes = 0)
    ∧ deserialize_eval_point [(0 : Byte)] = .ok [] := by
  refine ⟨by decide, ?_⟩
  rw [deserialize_eval_point_eq]
  rfl

/-- Claim C2, amended: a byte-sequence length that is not a multiple of
`field_size_bytes()` never causes a failure — the trailing remainder
shorter than `field_size_bytes()` is silently ignored — and the complete
`field_size_bytes()`-wide slices are decoded left to right, in order. -/
theorem deserialize_eval_point_drops_remainder (P : List F) (rem : List Byte)
    (h : rem.length < field_size_bytes) :
    deserialize_eval_point (serializePoint P ++ rem) = .ok P := by
  rw [field_size_bytes_eq] at h
  exact deserialize_serializePoint_append P rem h

theorem deserialize_eval_point_drops_remainder_witness :
    deserialize_eval_point (serializePoint [Fzero] ++ [(0 : Byte)]) = .ok [Fzero] :=
  deserialize_eval_point_drops_remainder [Fzero] [(0 : Byte)] (by decide)

/-- Claim C7: encoding an ordered sequence of field elements coordinate by
coordinate into concatenated fixed-width compressed encodings, as the
producer does, and then decoding the bytes as the verifier does, yields the
same ordered sequence. -/
theorem decode_encode_point (P : List F) :
    deserialize_eval_point (serializePoint P) = .ok P :=
  deserialize_serializePoint P

/-- Claim C3: for every staged record and every caller different from the
record's owner, `upload_chunk` and `close_proof` fail with the not-owner
error and leave the record untouched, regardless of chunk content or record
state; and whenever either operation succeeds, the caller was the recorded
owner. -/
theorem ownership_enforced (B : Backend) (caller : Pubkey) (d : ProofData)
    (chunk : List Byte) (hne : caller ≠ d.payer) :
    step B (.uploadChunk chunk) caller (some d) = (some d, .error .NotOwner)
    ∧ step B .closeProof caller (some d) = (some d, .error .NotOwner)
    ∧ (∀ (caller2 : Pubkey) (chunk2 : List Byte) (d2 : ProofData),
        (step B (.uploadChunk chunk2) caller2 (some d2)).2 = .ok () → caller2 = d2.payer)
    ∧ (∀ (caller2 : Pubkey) (d2 : ProofData),
        (step B .closeProof caller2 (some d2)).2 = .ok () → caller2 = d2.payer) := by
  refine ⟨by simp [step, hne], by simp [step, hne], ?_, ?_⟩
  · intro caller2 chunk2 d2 h
    by_cases hc : caller2 = d2.payer
    · exact hc
    · simp [step, hc] at h
  · intro caller2 d2 h
    by_cases hc : caller2 = d2.payer
    · exact hc
    · simp [step, hc] at h

theorem ownership_enforced_witness :
    step trivialBackend (.uploadChunk [(7 : Byte)]) 1 (some ⟨2, [], [], []⟩)
      = (some ⟨2, [], [], []⟩, .error .NotOwner)
    ∧ step trivialBackend .closeProof 1 (some ⟨2, [], [], []⟩)
      = (some ⟨2, [], [], []⟩, .error .NotOwner) :=
  ⟨(ownership_enforced trivialBackend 1 ⟨2, [], [], []⟩ [(7 : Byte)] (by decide)).1,
   (ownership_enforced trivialBackend 1 ⟨2, [], [], []⟩ [(7 : Byte)] (by decide)).2.1⟩

/-- Claim C4: the `verify` instruction never mutates the record — the slot
is returned unchanged, so `proof`, `eval_point` and `eval_value` are
untouched — it performs no ownership check, behaving identically for every
caller identity, and repeating it on the unchanged record returns the same
result. -/
theorem verify_readonly_idempotent (B : Backend) (nv sl pb ff slir : Fin 256)
    (caller caller2 : Pubkey) (d : ProofData) :
    (step B (.verifyIx nv sl pb ff slir) caller (some d)).1 = some d
    ∧ step B (.verifyIx nv sl pb ff slir) caller (some d)
        = step B (.verifyIx nv sl pb ff slir) caller2 (some d)
    ∧ step B (.verifyIx nv sl pb ff slir) caller
        ((step B (.verifyIx nv sl pb ff slir) caller (some d)).1)
        = step B (.verifyIx nv sl pb ff slir) caller (some d) :=
  ⟨rfl, rfl, rfl⟩

/-- Claim C5: on an uninitialized slot, `init_proof` succeeds, records the
caller as owner, sets the proof buffer empty and stores the supplied point
and value bytes; on a slot that already holds a record it fails with the
already-initialized error, so in particular a second `init_proof` right
after a successful one fails. -/
theorem init_at_most_once (B : Backend) (caller caller2 : Pubkey)
    (ep ev ep2 ev2 : List Byte) (d : ProofData) :
    step B (.initProof ep ev) caller none = (some ⟨caller, [], ep, ev⟩, .ok ())
    ∧ step B (.initProof ep2 ev2) caller2 (some d) = (some d, .error .AlreadyInitialized)
    ∧ (step B (.initProof ep2 ev2) caller2
        ((step B (.initProof ep ev) caller none).1)).2 = .error .AlreadyInitialized :=
  ⟨rfl, rfl, rfl⟩

/-- Claim C6: a successful `upload_chunk` leaves the proof buffer equal to
the old buffer followed by the chunk; under every instruction the surviving
record's proof buffer extends the old one (never shrinks, never reorders
existing bytes); and uploads from the owner in arrival order build exactly
the concatenation of the chunks. -/
theorem proof_append_only (B : Backend) :
    (∀ (caller : Pubkey) (d : ProofData) (chunk : List Byte),
        (step B (.uploadChunk chunk) caller (some d)).2 = .ok () →
        (step B (.uploadChunk chunk) caller (some d)).1
          = some { d with proof := d.proof ++ chunk })
    ∧ (∀ (i : Instruction) (caller : Pubkey) (d d2 : ProofData),
        (step B i caller (some d)).1 = some d2 → d.proof <+: d2.proof)
    ∧ (∀ (caller : Pubkey) (d : ProofData) (chunks : List (List Byte)),
        caller = d.payer →
        runUploads B caller chunks (some d)
          = some { d with proof := d.proof ++ flattenChunks chunks }) := by
  refine ⟨?_, ?_, ?_⟩
  · intro caller d chunk h
    by_cases hc : caller = d.payer
    · simp [step, hc]
    · simp [step, hc] at h
  · intro i caller d d2 h
    cases i with
    | initProof ep ev =>
      simp only [step, Option.some.injEq] at h
      subst h
      exact List.prefix_rfl
    | uploadChunk chunk =>
      by_cases hc : caller = d.payer
      · simp only [step, if_pos hc, Option.some.injEq] at h
        subst h
        exact List.prefix_append d.proof chunk
      · simp only [step, if_neg hc, Option.some.injEq] at h
        subst h
        exact List.prefix_rfl
    | verifyIx nv sl pb ff slir =>
      simp only [step, Option.some.injEq] at h
      subst h
      exact List.prefix_rfl
    | closeProof =>
      by_cases hc : caller = d.payer
      · simp [step, hc] at h
      · simp only [step, if_neg hc, Option.some.injEq] at h
        subst h
        exact List.prefix_rfl
  · intro caller d chunks h
    exact runUploads_owner B caller chunks d h

theorem proof_append_only_witness :
    runUploads trivialBackend 3 [[(1 : Byte)], [(2 : Byte), (3 : Byte)]]
      (some ⟨3, [(0 : Byte)], [], []⟩)
      = some ⟨3, [(0 : Byte), (1 : Byte), (2 : Byte), (3 : Byte)], [], []⟩ :=
  (proof_append_only trivialBackend).2.2 3 ⟨3, [(0 : Byte)], [], []⟩
    [[(1 : Byte)], [(2 : Byte), (3 : Byte)]] rfl

/-- Claim C8: parameter building is deterministic — the Merkle hash key
material comes from a fixed seed, so it is the same fixed value in every
run — and therefore the producer's run and the verifier's run on
byte-identical configurations, each applying `commit_statement` and then
`add_whir_proof` in that fixed order to the fixed label, derive
byte-identical domain separators. -/
theorem domainsep_deterministic (B : Backend) (c : ProofConfig)
    (nv sl pb ff slir : Fin 256)
    (h : c = ⟨nv.val, sl.val, pb.val, slir.val, ff.val⟩) :
    prover_domainsep B c = onchain_domainsep B nv sl pb ff slir := by
  subst h
  rfl

theorem domainsep_deterministic_witness :
    prover_domainsep trivialBackend
      ⟨(6 : Fin 256).val, (100 : Fin 256).val, (16 : Fin 256).val, (1 : Fin 256).val,
       (4 : Fin 256).val⟩
      = onchain_domainsep trivialBackend 6 100 16 4 1 :=
  domainsep_deterministic trivialBackend
    ⟨(6 : Fin 256).val, (100 : Fin 256).val, (16 : Fin 256).val, (1 : Fin 256).val,
     (4 : Fin 256).val⟩ 6 100 16 4 1 rfl

/-- Claim C9: the on-chain `verify` receives the five configuration fields
as 8-bit unsigned integers and performs no range validation: an intended
value above 255 is silently wrapped modulo 256 at the interface — the
instruction behaves exactly as for the reduced value instead of rejecting —
and its parameters are built from the reduced values, while the producer's
`ProofConfig` carries the same fields at full width into parameter
building. -/
theorem u8_interface_truncates (B : Backend) (caller : Pubkey) (slot : Slot)
    (nv sl pb ff slir : Nat) :
    step B (.verifyIx (toU8 nv) (toU8 sl) (toU8 pb) (toU8 ff) (toU8 slir)) caller slot
      = step B (.verifyIx (toU8 (nv % 256)) (toU8 (sl % 256)) (toU8 (pb % 256))
          (toU8 (ff % 256)) (toU8 (slir % 256))) caller slot
    ∧ onchain_params B (toU8 nv) (toU8 sl) (toU8 pb) (toU8 ff) (toU8 slir)
      = create_whir_params B (nv % 256) (sl % 256) (pb % 256) (ff % 256) (slir % 256)
    ∧ create_whir_params_cfg B ⟨nv, sl, pb, slir, ff⟩
      = create_whir_params B nv sl pb ff slir := by
  have hmod : ∀ m : Nat, toU8 m = toU8 (m % 256) := by
    intro m
    apply Fin.ext
    simp only [toU8]
    omega
  exact ⟨by rw [hmod nv, hmod sl, hmod pb, hmod ff, hmod slir], rfl, rfl⟩

/-- Claim C10: `init_proof` performs no decoding and no length check of the
supplied point and value bytes — it succeeds on every pair of byte
sequences, storing them verbatim — and their well-formedness is first
examined when `verify` later decodes them: with a parseable commitment, a
malformed staged point surfaces that decode error from `verify`, and a
malformed staged value surfaces the deserialization error. -/
theorem init_stores_bytes_verbatim (B : Backend) (caller : Pubkey)
    (ep ev : List Byte) (d : ProofData) (nv sl pb ff slir : Fin 256)
    (parsed : B.Commitment) :
    step B (.initProof ep ev) caller none = (some ⟨caller, [], ep, ev⟩, .ok ())
    ∧ (B.parseCommitment (onchain_params B nv sl pb ff slir)
          (onchain_domainsep B nv sl pb ff slir) d.proof = some parsed →
        ∀ e, deserialize_eval_point d.eval_point = .error e →
          solana_verify_record B d nv sl pb ff slir = .error e)
    ∧ (B.parseCommitment (onchain_params B nv sl pb ff slir)
          (onchain_domainsep B nv sl pb ff slir) d.proof = some parsed →
        ∀ pt, deserialize_eval_point d.eval_point = .ok pt →
          deserializeF d.eval_value = none →
          solana_verify_record B d nv sl pb ff slir = .error .DeserializationError) := by
  refine ⟨rfl, ?_, ?_⟩
  · intro hparse e he
    simp [solana_verify_record, hparse, he]
  · intro hparse pt hpt hv
    simp [solana_verify_record, hparse, hpt, hv]

theorem init_stores_bytes_verbatim_witness :
    step trivialBackend (.initProof [(1 : Byte)] []) 4 none
      = (some ⟨4, [], [(1 : Byte)], []⟩, .ok ())
    ∧ solana_verify_record trivialBackend ⟨4, [], [], []⟩ 0 0 0 0 0
      = .error .DeserializationError :=
  ⟨(init_stores_bytes_verbatim trivialBackend 4 [(1 : Byte)] [] ⟨4, [], [], []⟩
      0 0 0 0 0 ()).1,
   (init_stores_bytes_verbatim trivialBackend 4 [(1 : Byte)] [] ⟨4, [], [], []⟩
      0 0 0 0 0 ()).2.2 rfl []
      (by rw [deserialize_eval_point_eq]; rfl) rfl⟩

end WhirSolana
